import Mathlib

/-!
Shallow embedding of the `kingdom_chess` Python package
(`src/kingdom_chess/__init__.py`).  Pure functions become Lean functions;
the mutating operations on `Board` (`do_move`, `undo_move`, the speculative
apply/undo loop in `deduce_king_state`, and `Game.make_move`) are embedded by
explicit state passing: a board is a function from positions to optional
pieces, and every operation that mutates the Python board returns the new
board (paired with its Python return value where there is one).
-/

set_option maxRecDepth 4000

-- Layout (source lines 11-65) ------------------------------------------------

/-- `BOARD_SIDE_LEN` from the source. -/
def BOARD_SIDE_LEN : Nat := 8

/-- The file labels `"abcdefgh"`. -/
def FILES : List Char := ['a', 'b', 'c', 'd', 'e', 'f', 'g', 'h']

/-- The rank labels `"87654321"` (rank 8 is row `y = 0`). -/
def RANKS : List Char := ['8', '7', '6', '5', '4', '3', '2', '1']

/-- `Position`: a pair of board coordinates.  The Python constructor raises
`ValueError` outside `[0, 8)`; here coordinates are unrestricted integers and
`Position.valid` is the constructor invariant. -/
structure Position where
  x : Int
  y : Int
deriving DecidableEq

/-- The invariant enforced by `Position.__post_init__`. -/
def Position.valid (p : Position) : Prop :=
  0 ≤ p.x ∧ p.x < 8 ∧ 0 ≤ p.y ∧ p.y < 8

instance (p : Position) : Decidable p.valid := by
  unfold Position.valid; infer_instance

/-- `Position.from_coordinate` on a two-character label: file letter then
rank digit, via `FILES.find` / `RANKS.find`; failure (`ValueError`) is `none`.
The Python length-2 check is expressed by taking exactly two characters. -/
def Position.from_coordinate (file rank : Char) : Option Position :=
  match FILES.findIdx? (fun c => c = file), RANKS.findIdx? (fun c => c = rank) with
  | some fx, some ry => some ⟨(fx : Int), (ry : Int)⟩
  | _, _ => none

/-- `_compare` from the source (unit step towards the second argument). -/
def _compare (x y : Int) : Int :=
  if x = y then 0 else if x < y then 1 else -1

/-- `Position.direction_to` (the returned value; the Python `assert` is
modelled separately by `direction_assert` because, as written, it is a
tautology and never fires). -/
def direction_to (self destination : Position) : Int × Int :=
  (_compare self.x destination.x, _compare self.y destination.y)

/-- The exact condition of the `assert` inside `Position.direction_to`:
`dx != 0 or dy != 0 or abs(dx) == abs(dy)`. -/
def direction_assert (self destination : Position) : Bool :=
  decide (destination.x - self.x ≠ 0) ||
    decide (destination.y - self.y ≠ 0) ||
    decide ((destination.x - self.x).natAbs = (destination.y - self.y).natAbs)

/-- The documented precondition of `direction_to` (spec 4.1): the vector is
zero in one axis or of equal magnitude in both (straight or diagonal). -/
def straightOrDiagonal (self destination : Position) : Prop :=
  destination.x - self.x = 0 ∨ destination.y - self.y = 0 ∨
    (destination.x - self.x).natAbs = (destination.y - self.y).natAbs

instance (p q : Position) : Decidable (straightOrDiagonal p q) := by
  unfold straightOrDiagonal; infer_instance

/-- `Position.shift` (the Python version revalidates bounds; in every reach
of the source it is applied between two valid collinear positions, where the
result is in bounds). -/
def Position.shift (p : Position) (dx dy : Int) : Position :=
  ⟨p.x + dx, p.y + dy⟩

-- Pieces (source lines 68-108) -----------------------------------------------

inductive PieceType where
  | KING | QUEEN | ROOK | BISHOP | KNIGHT | PAWN
deriving DecidableEq

inductive Color where
  | WHITE | BLACK
deriving DecidableEq

/-- `Color.opposite`. -/
def Color.opposite : Color → Color
  | Color.WHITE => Color.BLACK
  | Color.BLACK => Color.WHITE

structure Piece where
  typ : PieceType
  color : Color
deriving DecidableEq

/-- `PieceType.from_char` (after `.lower()`); `ValueError` is `none`. -/
def PieceType.from_char (c : Char) : Option PieceType :=
  if c = 'k' then some PieceType.KING
  else if c = 'q' then some PieceType.QUEEN
  else if c = 'r' then some PieceType.ROOK
  else if c = 'b' then some PieceType.BISHOP
  else if c = 'n' then some PieceType.KNIGHT
  else if c = 'p' then some PieceType.PAWN
  else none

-- Board (source lines 111-262) -----------------------------------------------

/-- A board maps positions to optional pieces (the Python 8x8 grid of
`Piece | None` cells, `board[pos]`). -/
def Board := Position → Option Piece

/-- `board[pos] = piece` (the `__setitem__` write). -/
def setBoard (b : Board) (pos : Position) (v : Option Piece) : Board :=
  fun q => if q = pos then v else b q

/-- The empty board (`Board()`). -/
def emptyBoard : Board := fun _ => none

/-- `Board.from_mapping`: place every listed piece on an empty board. -/
def from_mapping (l : List (Position × Piece)) : Board :=
  l.foldl (fun b pp => setBoard b pp.1 (some pp.2)) emptyBoard

/-- The 64 positions in the iteration order of `Board.to_mapping`
(`y` outer, `x` inner, both ascending). -/
def mappingOrder : List Position :=
  (List.range BOARD_SIDE_LEN).flatMap fun y =>
    (List.range BOARD_SIDE_LEN).map fun x => ⟨(x : Int), (y : Int)⟩

/-- `Board.to_mapping`: the occupied cells, in grid iteration order. -/
def to_mapping (b : Board) : List (Position × Piece) :=
  mappingOrder.filterMap fun p => (b p).map fun piece => (p, piece)

/-- `STARTING_BOARD_STATE` (source lines 114-150). -/
def STARTING_BOARD_STATE : List (Position × Piece) :=
  [ (⟨0, 0⟩, ⟨PieceType.ROOK, Color.BLACK⟩),
    (⟨1, 0⟩, ⟨PieceType.KNIGHT, Color.BLACK⟩),
    (⟨2, 0⟩, ⟨PieceType.BISHOP, Color.BLACK⟩),
    (⟨3, 0⟩, ⟨PieceType.QUEEN, Color.BLACK⟩),
    (⟨4, 0⟩, ⟨PieceType.KING, Color.BLACK⟩),
    (⟨5, 0⟩, ⟨PieceType.BISHOP, Color.BLACK⟩),
    (⟨6, 0⟩, ⟨PieceType.KNIGHT, Color.BLACK⟩),
    (⟨7, 0⟩, ⟨PieceType.ROOK, Color.BLACK⟩),
    (⟨0, 1⟩, ⟨PieceType.PAWN, Color.BLACK⟩),
    (⟨1, 1⟩, ⟨PieceType.PAWN, Color.BLACK⟩),
    (⟨2, 1⟩, ⟨PieceType.PAWN, Color.BLACK⟩),
    (⟨3, 1⟩, ⟨PieceType.PAWN, Color.BLACK⟩),
    (⟨4, 1⟩, ⟨PieceType.PAWN, Color.BLACK⟩),
    (⟨5, 1⟩, ⟨PieceType.PAWN, Color.BLACK⟩),
    (⟨6, 1⟩, ⟨PieceType.PAWN, Color.BLACK⟩),
    (⟨7, 1⟩, ⟨PieceType.PAWN, Color.BLACK⟩),
    (⟨0, 6⟩, ⟨PieceType.PAWN, Color.WHITE⟩),
    (⟨1, 6⟩, ⟨PieceType.PAWN, Color.WHITE⟩),
    (⟨2, 6⟩, ⟨PieceType.PAWN, Color.WHITE⟩),
    (⟨3, 6⟩, ⟨PieceType.PAWN, Color.WHITE⟩),
    (⟨4, 6⟩, ⟨PieceType.PAWN, Color.WHITE⟩),
    (⟨5, 6⟩, ⟨PieceType.PAWN, Color.WHITE⟩),
    (⟨6, 6⟩, ⟨PieceType.PAWN, Color.WHITE⟩),
    (⟨7, 6⟩, ⟨PieceType.PAWN, Color.WHITE⟩),
    (⟨0, 7⟩, ⟨PieceType.ROOK, Color.WHITE⟩),
    (⟨1, 7⟩, ⟨PieceType.KNIGHT, Color.WHITE⟩),
    (⟨2, 7⟩, ⟨PieceType.BISHOP, Color.WHITE⟩),
    (⟨3, 7⟩, ⟨PieceType.QUEEN, Color.WHITE⟩),
    (⟨4, 7⟩, ⟨PieceType.KING, Color.WHITE⟩),
    (⟨5, 7⟩, ⟨PieceType.BISHOP, Color.WHITE⟩),
    (⟨6, 7⟩, ⟨PieceType.KNIGHT, Color.WHITE⟩),
    (⟨7, 7⟩, ⟨PieceType.ROOK, Color.WHITE⟩) ]

/-- `Board.initialy_filled` (source spelling). -/
def initialy_filled : Board := from_mapping STARTING_BOARD_STATE

-- Move (source lines 441-473) ------------------------------------------------

inductive KingState where
  | SAFE | CHECK | CHECKMATE
deriving DecidableEq

structure Move where
  departure : Position
  destination : Position
  moving_piece : Piece
  captured_piece : Option Piece := none
  promotion_to : Option Piece := none
deriving DecidableEq

/-- `do_move`: write `None` at the departure, then the promotion piece (or
else the moving piece) at the destination. -/
def do_move (move : Move) (board : Board) : Board :=
  setBoard (setBoard board move.departure none) move.destination
    (some (move.promotion_to.getD move.moving_piece))

/-- `undo_move`: write the captured piece (possibly none) back at the
destination, then the moving piece back at the departure. -/
def undo_move (move : Move) (board : Board) : Board :=
  setBoard (setBoard board move.destination move.captured_piece) move.departure
    (some move.moving_piece)

abbrev MoveError := String

instance : DecidableEq (Except MoveError Move) := fun a b =>
  match a, b with
  | Except.ok x, Except.ok y =>
    if h : x = y then isTrue (by rw [h]) else isFalse (by simp [h])
  | Except.error e, Except.error f =>
    if h : e = f then isTrue (by rw [h]) else isFalse (by simp [h])
  | Except.ok _, Except.error _ => isFalse (by simp)
  | Except.error _, Except.ok _ => isFalse (by simp)

/-- `Except.ok`-projection (used where Python does `isinstance(r, Move)`). -/
def okOption : Except MoveError Move → Option Move
  | Except.ok m => some m
  | Except.error _ => none

def isMoveOk (e : Except MoveError Move) : Bool := (okOption e).isSome

-- is_path_clear (source lines 611-619) ---------------------------------------

/-- The `while intermediate != destination` walk of `is_path_clear`.  The
Python loop is bounded by the board geometry whenever `is_path_clear` is
reached (the callers have already established a straight or diagonal line),
so a fuel of `BOARD_SIDE_LEN` steps is exact on every reachable input. -/
def path_walk (board : Board) (destination : Position) (dx dy : Int) :
    Nat → Position → Bool
  | 0, _ => true
  | fuel + 1, intermediate =>
    if intermediate = destination then true
    else if (board intermediate).isSome then false
    else path_walk board destination dx dy fuel (intermediate.shift dx dy)

/-- `is_path_clear`. -/
def is_path_clear (board : Board) (departure destination : Position) : Bool :=
  let d := direction_to departure destination
  path_walk board destination d.1 d.2 BOARD_SIDE_LEN (departure.shift d.1 d.2)

-- interpret_move (source lines 476-554) --------------------------------------

/-- The shared tail of `interpret_move` after the per-piece `match` (source
lines 548-554): allied-capture check, stray-promotion check, `Move` value. -/
def finish_move (board : Board) (moving_color : Color)
    (departure destination : Position) (moving_piece : Piece)
    (promotion_to : Option PieceType) : Except MoveError Move :=
  if (board destination).any (fun captured => captured.color == moving_color) then
    Except.error "it\x27s not alowed to capture allied piece"
  else if promotion_to.isSome then
    Except.error "only pawn can be promoted"
  else
    Except.ok ⟨departure, destination, moving_piece, board destination, none⟩

/-- The promotion rank test value `7 if moving_color is BLACK else 0`
(source line 535). -/
def back_rank (moving_color : Color) : Int :=
  if moving_color = Color.BLACK then 7 else 0

/-- The pawn movement checks (source lines 519-534): `some e` is an early
error return, `none` falls through to the promotion logic. -/
def pawn_move_error (board : Board) (moving_color : Color)
    (departure destination : Position) : Option MoveError :=
  let forward : Int := if moving_color = Color.BLACK then 1 else -1
  let dx : Int := destination.x - departure.x
  let dy : Int := destination.y - departure.y
  if dx.natAbs = 1 ∧ dy = forward then
    if board destination = none then
      some "pawn can move diagonally only when capturing"
    else none
  else if dx = 0 then
    let first_move : Prop := departure.y = (if moving_color = Color.BLACK then 1 else 6)
    let double_move : Prop := first_move ∧ dy = 2 * forward
    if ¬ (dy = forward) ∧ ¬ double_move then some "invalid pawn move"
    else if double_move ∧ ¬ (is_path_clear board departure destination = true) then
      some "pawn can\x27t leap over intervening piece"
    else if (board destination).isSome then some "pawn can\x27t capture on forward move"
    else none
  else some "invalid pawn move"

/-- `interpret_move` (source lines 476-554). -/
def interpret_move (board : Board) (moving_color : Color)
    (departure destination : Position) (promotion_to : Option PieceType) :
    Except MoveError Move :=
  if departure = destination then
    Except.error "destination is the same as departure"
  else
    match board departure with
    | none => Except.error "departure have no piece"
    | some moving_piece =>
      if ¬ (moving_piece.color = moving_color) then
        Except.error "can\x27t move enemy piece"
      else
        let dx : Int := destination.x - departure.x
        let dy : Int := destination.y - departure.y
        match moving_piece.typ with
        | PieceType.KING =>
          if dx.natAbs > 1 ∨ dy.natAbs > 1 then Except.error "invalid king move"
          else finish_move board moving_color departure destination moving_piece promotion_to
        | PieceType.ROOK =>
          if dx ≠ 0 ∧ dy ≠ 0 then Except.error "invalid rook move"
          else if ¬ (is_path_clear board departure destination = true) then
            Except.error "rook can\x27t leap over intervening pieces"
          else finish_move board moving_color departure destination moving_piece promotion_to
        | PieceType.BISHOP =>
          if dx.natAbs ≠ dy.natAbs then Except.error "invalid bishop move"
          else if ¬ (is_path_clear board departure destination = true) then
            Except.error "bishop can\x27t leap over intervening pieces"
          else finish_move board moving_color departure destination moving_piece promotion_to
        | PieceType.KNIGHT =>
          if ¬ ((dx.natAbs, dy.natAbs) ∈ ([(1, 2), (2, 1)] : List (Nat × Nat))) then
            Except.error "invalid knight move"
          else finish_move board moving_color departure destination moving_piece promotion_to
        | PieceType.QUEEN =>
          if dx.natAbs ≠ dy.natAbs ∧ dx ≠ 0 ∧ dy ≠ 0 then Except.error "invalid queen move"
          else if ¬ (is_path_clear board departure destination = true) then
            Except.error "queen can\x27t leap over intervening pieces"
          else finish_move board moving_color departure destination moving_piece promotion_to
        | PieceType.PAWN =>
          match pawn_move_error board moving_color departure destination with
          | some e => Except.error e
          | none =>
            if destination.y = back_rank moving_color then
              match promotion_to with
              | none => Except.error "pawn has to be promoted to something"
              | some t =>
                Except.ok ⟨departure, destination, moving_piece, board destination,
                  some ⟨t, moving_color⟩⟩
            else if promotion_to.isSome then Except.error "pawn can\x27t be promoted here"
            else finish_move board moving_color departure destination moving_piece promotion_to

-- King safety (source lines 586-608) -----------------------------------------

/-- `is_position_safe`: no enemy piece has a legal move onto `position`
(promotion target omitted, exactly as in the source). -/
def is_position_safe (board : Board) (position : Position) (enemy_color : Color) : Bool :=
  ! (to_mapping board).any fun ap =>
      ap.2.color == enemy_color &&
        isMoveOk (interpret_move board enemy_color ap.1 position none)

/-- `is_king_under_attack`: find the first king of the colour in scan order;
`false` when there is none. -/
def is_king_under_attack (board : Board) (color : Color) : Bool :=
  match (to_mapping board).find? (fun pp => pp.2.typ == PieceType.KING && pp.2.color == color) with
  | some pp => ! is_position_safe board pp.1 color.opposite
  | none => false

-- deduce_king_state (source lines 557-583) -----------------------------------

/-- The 64 candidate destinations, in the order of `all_positions` inside
`deduce_king_state` (`x` outer, `y` inner; note this differs from
`mappingOrder`). -/
def allPositionsXY : List Position :=
  (List.range BOARD_SIDE_LEN).flatMap fun x =>
    (List.range BOARD_SIDE_LEN).map fun y => ⟨(x : Int), (y : Int)⟩

/-- `pieces_positions` inside `deduce_king_state`. -/
def pieces_positions (board : Board) (next_moving_color : Color) : List Position :=
  (to_mapping board).filterMap fun pp =>
    if pp.2.color = next_moving_color then some pp.1 else none

/-- The `(pos, new_pos)` candidate pairs enumerated by the
`all_potential_moves` generator. -/
def movePairs (board : Board) (next_moving_color : Color) : List (Position × Position) :=
  (pieces_positions board next_moving_color).flatMap fun pos =>
    allPositionsXY.map fun new_pos => (pos, new_pos)

/-- The `for potential_move in all_potential_moves` loop of
`deduce_king_state`, with the board state threaded explicitly: the Python
generator interprets each candidate against the board as it is when the loop
advances, and the loop body applies, inspects and undoes each legal move. -/
def deduce_loop (next_moving_color : Color) :
    List (Position × Position) → Board → KingState × Board
  | [], board => (KingState.CHECKMATE, board)
  | (pos, new_pos) :: rest, board =>
    match interpret_move board next_moving_color pos new_pos none with
    | Except.error _ => deduce_loop next_moving_color rest board
    | Except.ok potential_move =>
      let b1 := do_move potential_move board
      if is_king_under_attack b1 next_moving_color then
        deduce_loop next_moving_color rest (undo_move potential_move b1)
      else
        (KingState.CHECK, undo_move potential_move b1)

/-- `deduce_king_state`; the second component is the board as the function
leaves it (the Python function mutates and restores its argument). -/
def deduce_king_state (board : Board) (next_moving_color : Color) : KingState × Board :=
  if ¬ (is_king_under_attack board next_moving_color = true) then
    (KingState.SAFE, board)
  else
    deduce_loop next_moving_color (movePairs board next_moving_color) board

-- Game (source lines 332-434) ------------------------------------------------

structure Game where
  board : Board
  moving_color : Color
  enemy_color : Color
  enemy_king_state : KingState

/-- `Game.__init__` (the constructor runs `deduce_king_state` on the given
board for the enemy colour; the board it stores is the one that call leaves
behind). -/
def Game.init (board : Board) (moving_color : Color) : Game :=
  let r := deduce_king_state board moving_color.opposite
  ⟨r.2, moving_color, moving_color.opposite, r.1⟩

/-- `Game.fresh`. -/
def fresh : Game := Game.init initialy_filled Color.WHITE

/-- `Game.make_move` (source lines 362-380), returning the Python return
value together with the updated game.  On commit the colours are swapped
first, so the cached state is recomputed for the *new* enemy colour, which is
the colour that just moved. -/
def make_move (g : Game) (departure destination : Position)
    (promotion_to : Option PieceType) : Except MoveError Move × Game :=
  match interpret_move g.board g.moving_color departure destination promotion_to with
  | Except.error e => (Except.error e, g)
  | Except.ok move =>
    let b1 := do_move move g.board
    if is_king_under_attack b1 g.moving_color then
      (Except.error "move leaves king under immediate attack",
        ⟨undo_move move b1, g.moving_color, g.enemy_color, g.enemy_king_state⟩)
    else
      let r := deduce_king_state b1 g.moving_color
      (Except.ok move, ⟨r.2, g.enemy_color, g.moving_color, r.1⟩)

-- parse_move_notation (source lines 382-434) ---------------------------------

/-- The capture groups of the move-notation regular expression
`[kqrbnp]? [a-h]? [1-8]? [a-h][1-8] (/[qrbn])?`, with each matched character
already converted through the lookup the source applies right after matching
(`PieceType.from_char`, `FILES.find`, `RANKS.find`,
`Position.from_coordinate`); those lookups cannot fail on characters the
classes accept, so no information is lost. -/
structure NotationGroups where
  piece : Option PieceType
  departure_x : Option Int
  departure_y : Option Int
  destination : Position
  promotion_to : Option PieceType
deriving DecidableEq

/-- `[qrbn]` promotion letters. -/
def promotion_of_char (c : Char) : Option PieceType :=
  if c = 'q' then some PieceType.QUEEN
  else if c = 'r' then some PieceType.ROOK
  else if c = 'b' then some PieceType.BISHOP
  else if c = 'n' then some PieceType.KNIGHT
  else none

def file_index (c : Char) : Option Int :=
  (FILES.findIdx? (fun d => d = c)).map fun n => (n : Int)

def rank_index (c : Char) : Option Int :=
  (RANKS.findIdx? (fun d => d = c)).map fun n => (n : Int)

/-- The `[1-8]?` tail of the departure prefix. -/
def parse_rank_part : List Char → Option (Option Int)
  | [] => some none
  | [c] => (rank_index c).map some
  | _ => none

/-- The `[a-h]? [1-8]?` tail; the regex engine prefers consuming the file
character and backtracks if the remainder fails. -/
def parse_file_rank (cs : List Char) : Option (Option Int × Option Int) :=
  (match cs with
   | c :: rest =>
     match file_index c with
     | some i => (parse_rank_part rest).map fun r => (some i, r)
     | none => none
   | [] => none)
  <|> (parse_rank_part cs).map fun r => ((none : Option Int), r)

/-- The `[kqrbnp]? [a-h]? [1-8]?` departure prefix, with the same greedy
preference order as the regex. -/
def parse_departure_prefix (cs : List Char) :
    Option (Option PieceType × Option Int × Option Int) :=
  (match cs with
   | c :: rest =>
     match PieceType.from_char c with
     | some t => (parse_file_rank rest).map fun fr => (some t, fr.1, fr.2)
     | none => none
   | [] => none)
  <|> (parse_file_rank cs).map fun fr => ((none : Option PieceType), fr.1, fr.2)

/-- `re.fullmatch` of the notation pattern on an (already lowercased) string.
`/` can only occur as the second-to-last character (no character class of the
core accepts it), so the optional `/[qrbn]` suffix is split off the end and
the two destination characters precede it. -/
def notationMatch (s : List Char) : Option NotationGroups :=
  let split : Option (List Char × Option PieceType) :=
    match s.reverse with
    | t :: '/' :: coreRev =>
      match promotion_of_char t with
      | some pt => some (coreRev.reverse, some pt)
      | none => none
    | _ => if s.contains '/' then none else some (s, none)
  match split with
  | none => none
  | some (core, promo) =>
    match core.reverse with
    | r :: f :: preRev =>
      match Position.from_coordinate f r, parse_departure_prefix preRev.reverse with
      | some dest, some gr => some ⟨gr.1, gr.2.1, gr.2.2, dest, promo⟩
      | _, _ => none
    | _ => none

/-- `potential_moving_pieces_positions` inside the method ` parse_move_notation` of `Game`. -/
def matchingPositions (g : Game) (nt : NotationGroups) : List Position :=
  (to_mapping g.board).filterMap fun pp =>
    if pp.2 = ⟨nt.piece.getD PieceType.PAWN, g.moving_color⟩
        ∧ (∀ i ∈ nt.departure_x, pp.1.x = i)
        ∧ (∀ j ∈ nt.departure_y, pp.1.y = j) then
      some pp.1
    else none

/-- `all_potential_moves` inside the method ` parse_move_notation` of `Game`. -/
def candidateMoves (g : Game) (nt : NotationGroups) : List Move :=
  (matchingPositions g nt).filterMap fun pos =>
    okOption (interpret_move g.board g.moving_color pos nt.destination nt.promotion_to)

/-- The method ` parse_move_notation` of `Game`. -/
def parse_move_notation (g : Game) (s : List Char) : Except MoveError Move :=
  match notationMatch (s.map Char.toLower) with
  | none => Except.error "invalid move notation"
  | some nt =>
    match candidateMoves g nt with
    | [move] => Except.ok move
    | [] => Except.error "invalid move"
    | _ => Except.error "ambiguous move notation"

-- Fixture boards --------------------------------------------------------------

/-- Checkmate fixture of spec 8: Black king a8, White king a6, White rook b6,
White queen c6 (a8 = (0,0), a6 = (0,2), b6 = (1,2), c6 = (2,2)). -/
def checkmateBoard : Board := from_mapping
  [ (⟨0, 0⟩, ⟨PieceType.KING, Color.BLACK⟩),
    (⟨0, 2⟩, ⟨PieceType.KING, Color.WHITE⟩),
    (⟨1, 2⟩, ⟨PieceType.ROOK, Color.WHITE⟩),
    (⟨2, 2⟩, ⟨PieceType.QUEEN, Color.WHITE⟩) ]

/-- The same fixture with a Black bishop added at e8 = (4,0). -/
def checkEscapeBoard : Board := from_mapping
  [ (⟨0, 0⟩, ⟨PieceType.KING, Color.BLACK⟩),
    (⟨4, 0⟩, ⟨PieceType.BISHOP, Color.BLACK⟩),
    (⟨0, 2⟩, ⟨PieceType.KING, Color.WHITE⟩),
    (⟨1, 2⟩, ⟨PieceType.ROOK, Color.WHITE⟩),
    (⟨2, 2⟩, ⟨PieceType.QUEEN, Color.WHITE⟩) ]

/-- False-checkmate fixture for the promotion-escape gap: White rook h1,
White knight b4, White king h8, Black king a1, Black pawn b2.  Black is
checked along rank 1; the only escape is the promotion b2-b1, which blocks
the rook. -/
def promoMateBoard : Board := from_mapping
  [ (⟨7, 7⟩, ⟨PieceType.ROOK, Color.WHITE⟩),
    (⟨1, 4⟩, ⟨PieceType.KNIGHT, Color.WHITE⟩),
    (⟨7, 0⟩, ⟨PieceType.KING, Color.WHITE⟩),
    (⟨0, 7⟩, ⟨PieceType.KING, Color.BLACK⟩),
    (⟨1, 6⟩, ⟨PieceType.PAWN, Color.BLACK⟩) ]

/-- The blocking promotion move on `promoMateBoard`. -/
def promoEscapeMove : Move :=
  ⟨⟨1, 6⟩, ⟨1, 7⟩, ⟨PieceType.PAWN, Color.BLACK⟩, none,
    some ⟨PieceType.QUEEN, Color.BLACK⟩⟩

/-- Board exhibiting the allied-capture-by-promotion hole: Black pawn b2,
Black knight a1; the pawn may "capture" the allied knight while promoting. -/
def alliedPromoBoard : Board := from_mapping
  [ (⟨1, 6⟩, ⟨PieceType.PAWN, Color.BLACK⟩),
    (⟨0, 7⟩, ⟨PieceType.KNIGHT, Color.BLACK⟩) ]

/-- A lone Black pawn on e7 = (4,1). -/
def blackPawnE7Board : Board := from_mapping
  [ (⟨4, 1⟩, ⟨PieceType.PAWN, Color.BLACK⟩) ]

/-- A lone White pawn on e7 = (4,1). -/
def whitePawnE7Board : Board := from_mapping
  [ (⟨4, 1⟩, ⟨PieceType.PAWN, Color.WHITE⟩) ]

/-- Self-check fixture from the test suite: White king (5,4), Black king
(3,5); moving the White king to (4,4) walks into the Black king. -/
def selfCheckBoard : Board := from_mapping
  [ (⟨5, 4⟩, ⟨PieceType.KING, Color.WHITE⟩),
    (⟨3, 5⟩, ⟨PieceType.KING, Color.BLACK⟩) ]

def selfCheckGame : Game := Game.init selfCheckBoard Color.WHITE

/-- A lone Black queen on (2,4), for the apply/undo witness. -/
def queenBoard : Board := from_mapping
  [ (⟨2, 4⟩, ⟨PieceType.QUEEN, Color.BLACK⟩) ]

/-- Two-kings board where Black can move freely, for the commit-path witness:
Black king (1,2), White king (2,5). -/
def twoKingsBoard : Board := from_mapping
  [ (⟨2, 5⟩, ⟨PieceType.KING, Color.WHITE⟩),
    (⟨1, 2⟩, ⟨PieceType.KING, Color.BLACK⟩) ]

def twoKingsGame : Game := Game.init twoKingsBoard Color.BLACK

-- Helper lemmas ---------------------------------------------------------------

theorem finish_move_ok {board : Board} {c : Color} {dep dst : Position}
    {mp : Piece} {pr : Option PieceType} {m : Move}
    (h : finish_move board c dep dst mp pr = Except.ok m) :
    m = ⟨dep, dst, mp, board dst, none⟩ ∧ pr = none ∧
      ∀ cp, board dst = some cp → ¬ (cp.color = c) := by
  unfold finish_move at h
  split at h
  · simp at h
  next hallied =>
    split at h
    · simp at h
    next hpr =>
      refine ⟨by simpa using h.symm, Option.not_isSome_iff_eq_none.mp hpr, ?_⟩
      intro cp hcp hcol
      exact hallied (by simp [hcp, hcol])

theorem interpret_move_ok_spec {board : Board} {c : Color} {dep dst : Position}
    {pr : Option PieceType} {m : Move}
    (h : interpret_move board c dep dst pr = Except.ok m) :
    m.departure = dep ∧ m.destination = dst ∧ dep ≠ dst ∧
      board dep = some m.moving_piece ∧ board dst = m.captured_piece ∧
      m.moving_piece.color = c ∧
      m.promotion_to = pr.map (fun t => Piece.mk t c) ∧
      (pr.isSome →
        m.moving_piece.typ = PieceType.PAWN ∧ dst.y = back_rank c) ∧
      (pr = none →
        ¬ (m.moving_piece.typ = PieceType.PAWN ∧ dst.y = back_rank c)) := by
  unfold interpret_move at h
  split at h
  · simp at h
  next hne =>
  split at h
  · simp at h
  next mp hmp =>
  split at h
  · simp at h
  next hcol =>
  rw [not_not] at hcol
  split at h <;> rename_i htyp <;> simp only [] at h
  -- KING
  · split at h
    · simp at h
    obtain ⟨rfl, hprnone, -⟩ := finish_move_ok h
    exact ⟨rfl, rfl, hne, hmp, rfl, hcol, by simp [hprnone], by simp [hprnone],
      fun _ hc => by simp [htyp] at hc⟩
  -- ROOK
  · split at h
    · simp at h
    split at h
    · simp at h
    obtain ⟨rfl, hprnone, -⟩ := finish_move_ok h
    exact ⟨rfl, rfl, hne, hmp, rfl, hcol, by simp [hprnone], by simp [hprnone],
      fun _ hc => by simp [htyp] at hc⟩
  -- BISHOP
  · split at h
    · simp at h
    split at h
    · simp at h
    obtain ⟨rfl, hprnone, -⟩ := finish_move_ok h
    exact ⟨rfl, rfl, hne, hmp, rfl, hcol, by simp [hprnone], by simp [hprnone],
      fun _ hc => by simp [htyp] at hc⟩
  -- KNIGHT
  · split at h
    · simp at h
    obtain ⟨rfl, hprnone, -⟩ := finish_move_ok h
    exact ⟨rfl, rfl, hne, hmp, rfl, hcol, by simp [hprnone], by simp [hprnone],
      fun _ hc => by simp [htyp] at hc⟩
  -- QUEEN
  · split at h
    · simp at h
    split at h
    · simp at h
    obtain ⟨rfl, hprnone, -⟩ := finish_move_ok h
    exact ⟨rfl, rfl, hne, hmp, rfl, hcol, by simp [hprnone], by simp [hprnone],
      fun _ hc => by simp [htyp] at hc⟩
  -- PAWN
  · split at h
    · simp at h
    split at h
    next hrank =>
      split at h
      · simp at h
      next t =>
        have hm : m = ⟨dep, dst, mp, board dst, some ⟨t, c⟩⟩ := by
          simpa using h.symm
        subst hm
        exact ⟨rfl, rfl, hne, hmp, rfl, hcol, by simp, fun _ => ⟨htyp, hrank⟩,
          fun hc => by simp at hc⟩
    next hrank =>
      split at h
      · simp at h
      obtain ⟨rfl, hprnone, -⟩ := finish_move_ok h
      exact ⟨rfl, rfl, hne, hmp, rfl, hcol, by simp [hprnone], by simp [hprnone],
        fun _ hc => absurd hc.2 hrank⟩

theorem undo_do_cancel {m : Move} {b : Board}
    (hdep : b m.departure = some m.moving_piece)
    (hdst : b m.destination = m.captured_piece) :
    undo_move m (do_move m b) = b := by
  funext q
  unfold undo_move do_move setBoard
  by_cases h1 : q = m.departure
  · subst h1
    simp [hdep]
  · by_cases h2 : q = m.destination
    · subst h2
      simp [h1, hdst]
    · simp [h1, h2]

/-- Apply/undo cancellation packaged for moves produced by the interpreter. -/
theorem undo_do_of_interpret {board : Board} {c : Color} {dep dst : Position}
    {pr : Option PieceType} {m : Move}
    (h : interpret_move board c dep dst pr = Except.ok m) :
    undo_move m (do_move m board) = board := by
  obtain ⟨h1, h2, h3, h4, h5, -⟩ := interpret_move_ok_spec h
  exact undo_do_cancel (by rw [h1]; exact h4) (by rw [h2]; exact h5)

theorem deduce_loop_board (c : Color) (pairs : List (Position × Position)) (b : Board) :
    (deduce_loop c pairs b).2 = b := by
  induction pairs generalizing b with
  | nil => rfl
  | cons pq rest ih =>
    obtain ⟨pos, new_pos⟩ := pq
    unfold deduce_loop
    cases hint : interpret_move b c pos new_pos none with
    | error e => simpa [hint] using ih b
    | ok mv =>
      have hcancel := undo_do_of_interpret hint
      simp only [hint]
      split
      · simpa [hcancel] using ih b
      · simpa using hcancel

theorem deduce_loop_ne_safe (c : Color) (pairs : List (Position × Position)) (b : Board) :
    (deduce_loop c pairs b).1 ≠ KingState.SAFE := by
  induction pairs generalizing b with
  | nil => simp [deduce_loop]
  | cons pq rest ih =>
    obtain ⟨pos, new_pos⟩ := pq
    unfold deduce_loop
    cases hint : interpret_move b c pos new_pos none with
    | error e => exact ih b
    | ok mv =>
      simp only []
      split
      · exact ih _
      · simp

theorem deduce_loop_check_iff (c : Color) (pairs : List (Position × Position)) (b : Board) :
    (deduce_loop c pairs b).1 = KingState.CHECK ↔
      ∃ pq ∈ pairs, ∃ mv, interpret_move b c pq.1 pq.2 none = Except.ok mv ∧
        is_king_under_attack (do_move mv b) c = false := by
  induction pairs with
  | nil => simp [deduce_loop]
  | cons pq rest ih =>
    obtain ⟨pos, new_pos⟩ := pq
    unfold deduce_loop
    cases hint : interpret_move b c pos new_pos none with
    | error e =>
      simp only [hint]
      rw [ih]
      constructor
      · rintro ⟨x, hx, hmv⟩
        exact ⟨x, List.mem_cons_of_mem _ hx, hmv⟩
      · rintro ⟨x, hx, mv, hmv, hatt⟩
        rcases List.mem_cons.mp hx with rfl | hx
        · rw [hint] at hmv; cases hmv
        · exact ⟨x, hx, mv, hmv, hatt⟩
    | ok mv =>
      have hcancel := undo_do_of_interpret hint
      simp only [hint]
      split
      next hatt =>
        rw [hcancel, ih]
        constructor
        · rintro ⟨x, hx, hmv⟩
          exact ⟨x, List.mem_cons_of_mem _ hx, hmv⟩
        · rintro ⟨x, hx, mv2, hmv2, hatt2⟩
          rcases List.mem_cons.mp hx with rfl | hx
          · rw [hint] at hmv2
            cases hmv2
            rw [hatt] at hatt2
            cases hatt2
          · exact ⟨x, hx, mv2, hmv2, hatt2⟩
      next hatt =>
        simp only [List.mem_cons]
        constructor
        · intro _
          exact ⟨(pos, new_pos), Or.inl rfl, mv, hint, by simpa using hatt⟩
        · intro _
          trivial

theorem deduce_board_eq (b : Board) (c : Color) : (deduce_king_state b c).2 = b := by
  unfold deduce_king_state
  split
  · rfl
  · exact deduce_loop_board c (movePairs b c) b

theorem deduce_safe_iff (b : Board) (c : Color) :
    (deduce_king_state b c).1 = KingState.SAFE ↔ is_king_under_attack b c = false := by
  unfold deduce_king_state
  split
  next h => simp_all
  next h =>
    have hns := deduce_loop_ne_safe c (movePairs b c) b
    simp_all

theorem deduce_check_iff (b : Board) (c : Color) :
    (deduce_king_state b c).1 = KingState.CHECK ↔
      is_king_under_attack b c = true ∧
        ∃ pq ∈ movePairs b c, ∃ mv, interpret_move b c pq.1 pq.2 none = Except.ok mv ∧
          is_king_under_attack (do_move mv b) c = false := by
  unfold deduce_king_state
  split
  next h => simp_all
  next h =>
    rw [not_not] at h
    rw [deduce_loop_check_iff]
    simp [h]

theorem deduce_checkmate_iff (b : Board) (c : Color) :
    (deduce_king_state b c).1 = KingState.CHECKMATE ↔
      is_king_under_attack b c = true ∧
        ¬ ∃ pq ∈ movePairs b c, ∃ mv, interpret_move b c pq.1 pq.2 none = Except.ok mv ∧
          is_king_under_attack (do_move mv b) c = false := by
  unfold deduce_king_state
  split
  next h => simp_all
  next h =>
    rw [not_not] at h
    have hns := deduce_loop_ne_safe c (movePairs b c) b
    rw [← deduce_loop_check_iff c (movePairs b c) b]
    simp only [h, true_and]
    cases hres : (deduce_loop c (movePairs b c) b).1 <;> simp_all

theorem mem_movePairs {b : Board} {c : Color} {p q : Position} :
    (p, q) ∈ movePairs b c ↔ p ∈ pieces_positions b c ∧ q ∈ allPositionsXY := by
  simp only [movePairs, List.mem_flatMap, List.mem_map]
  constructor
  · rintro ⟨pos, hpos, np, hnp, heq⟩
    obtain ⟨rfl, rfl⟩ := Prod.mk.injEq .. ▸ heq
    exact ⟨hpos, hnp⟩
  · rintro ⟨hp, hq⟩
    exact ⟨p, hp, q, hq, rfl⟩

theorem make_move_spec (g : Game) (dep dst : Position) (pr : Option PieceType) :
    (∀ e, interpret_move g.board g.moving_color dep dst pr = Except.error e →
        make_move g dep dst pr = (Except.error e, g)) ∧
    (∀ m, interpret_move g.board g.moving_color dep dst pr = Except.ok m →
      (is_king_under_attack (do_move m g.board) g.moving_color = true →
          make_move g dep dst pr =
            (Except.error "move leaves king under immediate attack", g)) ∧
      (is_king_under_attack (do_move m g.board) g.moving_color = false →
          make_move g dep dst pr =
            (Except.ok m, ⟨do_move m g.board, g.enemy_color, g.moving_color,
              (deduce_king_state (do_move m g.board) g.moving_color).1⟩))) := by
  constructor
  · intro e he
    unfold make_move
    rw [he]
  · intro m hm
    constructor
    · intro hatt
      have hcancel := undo_do_of_interpret hm
      unfold make_move
      rw [hm]
      simp only [hatt, if_true, hcancel]
    · intro hatt
      unfold make_move
      rw [hm]
      simp only [hatt, Bool.false_eq_true, if_false]
      rw [deduce_board_eq]

theorem length_filterMap_eq_countP {α β : Type} (f : α → Option β) (l : List α) :
    (l.filterMap f).length = l.countP (fun a => (f a).isSome) := by
  induction l with
  | nil => rfl
  | cons a t ih =>
    cases hfa : f a <;> simp [List.filterMap_cons, hfa, List.countP_cons, ih]

theorem candidateMoves_length (g : Game) (nt : NotationGroups) :
    (candidateMoves g nt).length =
      (matchingPositions g nt).countP
        (fun p => isMoveOk
          (interpret_move g.board g.moving_color p nt.destination nt.promotion_to)) := by
  rw [candidateMoves, length_filterMap_eq_countP]
  rfl

theorem game_init_inv (b : Board) (c : Color) :
    (Game.init b c).enemy_king_state =
      (deduce_king_state (Game.init b c).board (Game.init b c).enemy_color).1 := by
  simp only [Game.init]
  rw [deduce_board_eq]

theorem make_move_inv (g : Game) (dep dst : Position) (pr : Option PieceType)
    (h : g.enemy_king_state = (deduce_king_state g.board g.enemy_color).1) :
    (make_move g dep dst pr).2.enemy_king_state =
      (deduce_king_state (make_move g dep dst pr).2.board
        (make_move g dep dst pr).2.enemy_color).1 := by
  obtain ⟨herr, hok⟩ := make_move_spec g dep dst pr
  cases hint : interpret_move g.board g.moving_color dep dst pr with
  | error e => rw [herr e hint]; exact h
  | ok m =>
    obtain ⟨hatt1, hatt2⟩ := hok m hint
    cases hatt : is_king_under_attack (do_move m g.board) g.moving_color with
    | true => rw [hatt1 hatt]; exact h
    | false => rw [hatt2 hatt]

theorem parse_spec (g : Game) (s : List Char) (nt : NotationGroups)
    (hm : notationMatch (s.map Char.toLower) = some nt) :
    ((∃ m, parse_move_notation g s = Except.ok m) ↔ (candidateMoves g nt).length = 1) ∧
    ((candidateMoves g nt).length = 0 →
      parse_move_notation g s = Except.error "invalid move") ∧
    (2 ≤ (candidateMoves g nt).length →
      parse_move_notation g s = Except.error "ambiguous move notation") := by
  rcases hc : candidateMoves g nt with _ | ⟨m1, _ | ⟨m2, t⟩⟩ <;>
    simp [ parse_move_notation, hm, hc]

-- Claim theorems --------------------------------------------------------------

/-- C1: the same-colour-destination rejection does NOT cover the pawn
promotion path: on a board with a Black pawn at (1,6) and a Black knight at
(0,7), `interpret_move` returns a `Move` that captures the allied knight,
because the promotion branch returns before the allied-capture check runs.
This evaluates the interpreter at the failing input of the code bug. -/
theorem c1_allied_capture_on_promotion :
    interpret_move alliedPromoBoard Color.BLACK ⟨1, 6⟩ ⟨0, 7⟩ (some PieceType.QUEEN) =
      Except.ok ⟨⟨1, 6⟩, ⟨0, 7⟩, ⟨PieceType.PAWN, Color.BLACK⟩,
        some ⟨PieceType.KNIGHT, Color.BLACK⟩, some ⟨PieceType.QUEEN, Color.BLACK⟩⟩ ∧
    alliedPromoBoard ⟨0, 7⟩ = some ⟨PieceType.KNIGHT, Color.BLACK⟩ ∧
    (⟨PieceType.KNIGHT, Color.BLACK⟩ : Piece).color = Color.BLACK := by
  decide

/-- C2: for every `Move` returned by `interpret_move` on board `b`, undoing
after applying restores `b` exactly; apply writes `none` at the departure and
the promotion piece (or else the moving piece) at the destination, and undo
writes the captured piece back at the destination and the moving piece back
at the departure. -/
theorem c2_apply_undo_inverse :
    ∀ (b : Board) (c : Color) (dep dst : Position) (pr : Option PieceType) (m : Move),
      interpret_move b c dep dst pr = Except.ok m →
        undo_move m (do_move m b) = b ∧
        do_move m b m.departure = none ∧
        do_move m b m.destination = some (m.promotion_to.getD m.moving_piece) ∧
        undo_move m (do_move m b) m.destination = m.captured_piece ∧
        undo_move m (do_move m b) m.departure = some m.moving_piece := by
  intro b c dep dst pr m h
  obtain ⟨h1, h2, h3, h4, h5, -⟩ := interpret_move_ok_spec h
  subst h1
  subst h2
  refine ⟨undo_do_of_interpret h, ?_, ?_, ?_, ?_⟩
  · unfold do_move setBoard
    simp [h3]
  · unfold do_move setBoard
    simp
  · unfold undo_move do_move setBoard
    simp [h5.symm]
    intro he
    exact absurd he.symm h3
  · unfold undo_move setBoard
    simp

/-- C2 witness: a concrete queen move, interpreted and then cancelled. -/
theorem c2_apply_undo_inverse_witness :
    interpret_move queenBoard Color.BLACK ⟨2, 4⟩ ⟨3, 3⟩ none =
      Except.ok ⟨⟨2, 4⟩, ⟨3, 3⟩, ⟨PieceType.QUEEN, Color.BLACK⟩, none, none⟩ ∧
    undo_move ⟨⟨2, 4⟩, ⟨3, 3⟩, ⟨PieceType.QUEEN, Color.BLACK⟩, none, none⟩
      (do_move ⟨⟨2, 4⟩, ⟨3, 3⟩, ⟨PieceType.QUEEN, Color.BLACK⟩, none, none⟩ queenBoard) =
      queenBoard :=
  ⟨by decide,
    (c2_apply_undo_inverse queenBoard Color.BLACK ⟨2, 4⟩ ⟨3, 3⟩ none
      ⟨⟨2, 4⟩, ⟨3, 3⟩, ⟨PieceType.QUEEN, Color.BLACK⟩, none, none⟩ (by decide)).1⟩

/-- C3: `deduce_king_state` classifies SAFE exactly when the king is not
under attack; when it is under attack the result is CHECK exactly when some
(piece, destination) candidate yields a legal move (promotion target omitted)
whose application leaves the king no longer under attack, and CHECKMATE
exactly when no such candidate exists; on the checkmate fixture (Black king
a8, White king a6, White rook b6, White queen c6) the verdict is CHECKMATE,
and adding a Black bishop at e8 turns it into CHECK. -/
theorem c3_classify_characterization :
    (∀ (b : Board) (c : Color),
      ((deduce_king_state b c).1 = KingState.SAFE ↔
        ¬ is_king_under_attack b c = true) ∧
      (is_king_under_attack b c = true →
        (((deduce_king_state b c).1 = KingState.CHECK) ↔
          ∃ p ∈ pieces_positions b c, ∃ q ∈ allPositionsXY, ∃ mv,
            interpret_move b c p q none = Except.ok mv ∧
              is_king_under_attack (do_move mv b) c = false) ∧
        (((deduce_king_state b c).1 = KingState.CHECKMATE) ↔
          ¬ ∃ p ∈ pieces_positions b c, ∃ q ∈ allPositionsXY, ∃ mv,
            interpret_move b c p q none = Except.ok mv ∧
              is_king_under_attack (do_move mv b) c = false))) ∧
    (deduce_king_state checkmateBoard Color.BLACK).1 = KingState.CHECKMATE ∧
    (deduce_king_state checkEscapeBoard Color.BLACK).1 = KingState.CHECK := by
  refine ⟨?_, by decide, by decide⟩
  intro b c
  have hbridge :
      (∃ pq ∈ movePairs b c, ∃ mv, interpret_move b c pq.1 pq.2 none = Except.ok mv ∧
          is_king_under_attack (do_move mv b) c = false) ↔
        ∃ p ∈ pieces_positions b c, ∃ q ∈ allPositionsXY, ∃ mv,
          interpret_move b c p q none = Except.ok mv ∧
            is_king_under_attack (do_move mv b) c = false := by
    constructor
    · rintro ⟨⟨p, q⟩, hpq, hmv⟩
      obtain ⟨hp, hq⟩ := mem_movePairs.mp hpq
      exact ⟨p, hp, q, hq, hmv⟩
    · rintro ⟨p, hp, q, hq, hmv⟩
      exact ⟨(p, q), mem_movePairs.mpr ⟨hp, hq⟩, hmv⟩
  refine ⟨?_, ?_⟩
  · rw [deduce_safe_iff]
    simp
  · intro hatt
    constructor
    · rw [deduce_check_iff, ← hbridge]
      simp [hatt]
    · rw [deduce_checkmate_iff, ← hbridge]
      simp [hatt]

/-- C3 witness: the characterization applied to the check fixture, with the
in-check hypothesis discharged by evaluation. -/
theorem c3_classify_characterization_witness :
    is_king_under_attack checkEscapeBoard Color.BLACK = true ∧
    (((deduce_king_state checkEscapeBoard Color.BLACK).1 = KingState.CHECK) ↔
      ∃ p ∈ pieces_positions checkEscapeBoard Color.BLACK, ∃ q ∈ allPositionsXY, ∃ mv,
        interpret_move checkEscapeBoard Color.BLACK p q none = Except.ok mv ∧
          is_king_under_attack (do_move mv checkEscapeBoard) Color.BLACK = false) :=
  ⟨by decide,
    ((c3_classify_characterization.1 checkEscapeBoard Color.BLACK).2 (by decide)).1⟩

/-- C4 counterexample: in the self-check situation the message the code
returns is "move leaves king under immediate attack", not the
"move leaves king under attack" stated by the claim. -/
theorem c4_message_counterexample :
    interpret_move selfCheckGame.board selfCheckGame.moving_color ⟨5, 4⟩ ⟨4, 4⟩ none =
      Except.ok ⟨⟨5, 4⟩, ⟨4, 4⟩, ⟨PieceType.KING, Color.WHITE⟩, none, none⟩ ∧
    is_king_under_attack
      (do_move ⟨⟨5, 4⟩, ⟨4, 4⟩, ⟨PieceType.KING, Color.WHITE⟩, none, none⟩
        selfCheckGame.board) selfCheckGame.moving_color = true ∧
    (make_move selfCheckGame ⟨5, 4⟩ ⟨4, 4⟩ none).1 =
      Except.error "move leaves king under immediate attack" ∧
    ("move leaves king under immediate attack" : String) ≠
      "move leaves king under attack" := by
  decide

/-- C4 (amended): `make_move` returns the interpreter rejection with the game
unchanged; when the applied move leaves the mover's own king under attack it
undoes the move and returns "move leaves king under immediate attack" with
the game unchanged; otherwise the move stays applied, the colours are
swapped, the new enemy's king state is recomputed and cached, and the applied
`Move` is returned. -/
theorem c4_make_move_protocol :
    ∀ (g : Game) (dep dst : Position) (pr : Option PieceType),
      (∀ e, interpret_move g.board g.moving_color dep dst pr = Except.error e →
          make_move g dep dst pr = (Except.error e, g)) ∧
      (∀ m, interpret_move g.board g.moving_color dep dst pr = Except.ok m →
        (is_king_under_attack (do_move m g.board) g.moving_color = true →
            make_move g dep dst pr =
              (Except.error "move leaves king under immediate attack", g)) ∧
        (is_king_under_attack (do_move m g.board) g.moving_color = false →
            make_move g dep dst pr =
              (Except.ok m, ⟨do_move m g.board, g.enemy_color, g.moving_color,
                (deduce_king_state (do_move m g.board) g.moving_color).1⟩))) :=
  fun g dep dst pr => make_move_spec g dep dst pr

/-- C4 witness: the three paths of the protocol at concrete games. -/
theorem c4_make_move_protocol_witness :
    make_move selfCheckGame ⟨5, 4⟩ ⟨5, 3⟩ (some PieceType.QUEEN) =
      (Except.error "only pawn can be promoted", selfCheckGame) ∧
    make_move selfCheckGame ⟨5, 4⟩ ⟨4, 4⟩ none =
      (Except.error "move leaves king under immediate attack", selfCheckGame) ∧
    make_move twoKingsGame ⟨1, 2⟩ ⟨1, 1⟩ none =
      (Except.ok ⟨⟨1, 2⟩, ⟨1, 1⟩, ⟨PieceType.KING, Color.BLACK⟩, none, none⟩,
        ⟨do_move ⟨⟨1, 2⟩, ⟨1, 1⟩, ⟨PieceType.KING, Color.BLACK⟩, none, none⟩
            twoKingsGame.board,
          twoKingsGame.enemy_color, twoKingsGame.moving_color,
          (deduce_king_state
            (do_move ⟨⟨1, 2⟩, ⟨1, 1⟩, ⟨PieceType.KING, Color.BLACK⟩, none, none⟩
              twoKingsGame.board) twoKingsGame.moving_color).1⟩) :=
  ⟨(c4_make_move_protocol selfCheckGame ⟨5, 4⟩ ⟨5, 3⟩ (some PieceType.QUEEN)).1
      "only pawn can be promoted" (by decide),
    ((c4_make_move_protocol selfCheckGame ⟨5, 4⟩ ⟨4, 4⟩ none).2
      ⟨⟨5, 4⟩, ⟨4, 4⟩, ⟨PieceType.KING, Color.WHITE⟩, none, none⟩ (by decide)).1 (by decide),
    ((c4_make_move_protocol twoKingsGame ⟨1, 2⟩ ⟨1, 1⟩ none).2
      ⟨⟨1, 2⟩, ⟨1, 1⟩, ⟨PieceType.KING, Color.BLACK⟩, none, none⟩ (by decide)).2 (by decide)⟩

/-- C5: a board on which `deduce_king_state` reports CHECKMATE for Black even
though the pawn promotion b2-b1 (with an explicit Queen target) is legal and,
once applied, leaves the Black king no longer under attack; the candidate is
never generated because the enumeration passes no promotion target and the
interpreter then demands one. -/
theorem c5_false_checkmate_promotion_gap :
    is_king_under_attack promoMateBoard Color.BLACK = true ∧
    (deduce_king_state promoMateBoard Color.BLACK).1 = KingState.CHECKMATE ∧
    interpret_move promoMateBoard Color.BLACK ⟨1, 6⟩ ⟨1, 7⟩ none =
      Except.error "pawn has to be promoted to something" ∧
    interpret_move promoMateBoard Color.BLACK ⟨1, 6⟩ ⟨1, 7⟩ (some PieceType.QUEEN) =
      Except.ok promoEscapeMove ∧
    is_king_under_attack (do_move promoEscapeMove promoMateBoard) Color.BLACK = false := by
  decide

/-- C6: the `assert` in `direction_to`, as written
(`dx != 0 or dy != 0 or abs(dx) == abs(dy)`), holds for EVERY pair of
positions, so it never fails; in particular it passes on the knight delta
(0,0)-(1,2), which violates the documented straight-or-diagonal
precondition, and `direction_to` happily returns (1,1) there. -/
theorem c6_direction_assert_vacuous :
    (∀ p q : Position, direction_assert p q = true) ∧
    ¬ straightOrDiagonal ⟨0, 0⟩ ⟨1, 2⟩ ∧
    direction_assert ⟨0, 0⟩ ⟨1, 2⟩ = true ∧
    direction_to ⟨0, 0⟩ ⟨1, 2⟩ = (1, 1) := by
  refine ⟨?_, by decide, by decide, by decide⟩
  intro p q
  unfold direction_assert
  by_cases hx : q.x - p.x = 0
  · by_cases hy : q.y - p.y = 0
    · simp [hx, hy]
    · simp [hy]
  · simp [hx]

/-- C7 counterexample: under the coordinate-label format (file a-h, rank
8..1 top to bottom), e7 = (4,1) and e8 = (4,0); but a BLACK pawn moves
towards rank 1, so the claimed instance "Black pawn e7 to e8 promotes" is
rejected as "invalid pawn move", promotion target or not. -/
theorem c7_black_pawn_counterexample :
    Position.from_coordinate 'e' '7' = some ⟨4, 1⟩ ∧
    Position.from_coordinate 'e' '8' = some ⟨4, 0⟩ ∧
    blackPawnE7Board ⟨4, 1⟩ = some ⟨PieceType.PAWN, Color.BLACK⟩ ∧
    interpret_move blackPawnE7Board Color.BLACK ⟨4, 1⟩ ⟨4, 0⟩ (some PieceType.QUEEN) =
      Except.error "invalid pawn move" ∧
    interpret_move blackPawnE7Board Color.BLACK ⟨4, 1⟩ ⟨4, 0⟩ none =
      Except.error "invalid pawn move" := by
  decide

/-- C7 (amended): a legal pawn move onto the mover's promotion rank is
rejected without a promotion target; with a target the returned `Move`
applies to the promoted piece at the destination and an empty departure; a
target supplied with any other returned move is impossible; and the concrete
instance holds for a WHITE pawn at e7 moving to e8 (Black promotes on rank 1
instead). -/
theorem c7_promotion_rules :
    (∀ (b : Board) (c : Color) (dep dst : Position) (m : Move),
      interpret_move b c dep dst none = Except.ok m →
        ¬ (m.moving_piece.typ = PieceType.PAWN ∧ dst.y = back_rank c)) ∧
    (∀ (b : Board) (c : Color) (dep dst : Position) (t : PieceType) (m : Move),
      interpret_move b c dep dst (some t) = Except.ok m →
        m.moving_piece.typ = PieceType.PAWN ∧ dst.y = back_rank c ∧
          do_move m b dst = some ⟨t, c⟩ ∧ do_move m b dep = none) ∧
    interpret_move whitePawnE7Board Color.WHITE ⟨4, 1⟩ ⟨4, 0⟩ none =
      Except.error "pawn has to be promoted to something" ∧
    interpret_move whitePawnE7Board Color.WHITE ⟨4, 1⟩ ⟨4, 0⟩ (some PieceType.QUEEN) =
      Except.ok ⟨⟨4, 1⟩, ⟨4, 0⟩, ⟨PieceType.PAWN, Color.WHITE⟩, none,
        some ⟨PieceType.QUEEN, Color.WHITE⟩⟩ ∧
    do_move ⟨⟨4, 1⟩, ⟨4, 0⟩, ⟨PieceType.PAWN, Color.WHITE⟩, none,
        some ⟨PieceType.QUEEN, Color.WHITE⟩⟩ whitePawnE7Board ⟨4, 0⟩ =
      some ⟨PieceType.QUEEN, Color.WHITE⟩ ∧
    do_move ⟨⟨4, 1⟩, ⟨4, 0⟩, ⟨PieceType.PAWN, Color.WHITE⟩, none,
        some ⟨PieceType.QUEEN, Color.WHITE⟩⟩ whitePawnE7Board ⟨4, 1⟩ = none := by
  refine ⟨?_, ?_, by decide, by decide, by decide, by decide⟩
  · intro b c dep dst m h
    obtain ⟨-, -, -, -, -, -, -, -, hnone⟩ := interpret_move_ok_spec h
    exact hnone rfl
  · intro b c dep dst t m h
    obtain ⟨h1, h2, h3, h4, h5, h6, h7, h8, -⟩ := interpret_move_ok_spec h
    obtain ⟨hp, hr⟩ := h8 (by simp)
    subst h1
    subst h2
    refine ⟨hp, hr, ?_, ?_⟩
    · unfold do_move setBoard
      simp [h7]
    · unfold do_move setBoard
      simp [h3]

/-- C7 witness: both universally quantified parts applied at concrete
moves. -/
theorem c7_promotion_rules_witness :
    ¬ ((⟨⟨2, 4⟩, ⟨3, 3⟩, ⟨PieceType.QUEEN, Color.BLACK⟩, none, none⟩ :
        Move).moving_piece.typ = PieceType.PAWN ∧
        (⟨3, 3⟩ : Position).y = back_rank Color.BLACK) ∧
    ((⟨⟨4, 1⟩, ⟨4, 0⟩, ⟨PieceType.PAWN, Color.WHITE⟩, none,
        some ⟨PieceType.QUEEN, Color.WHITE⟩⟩ : Move).moving_piece.typ =
          PieceType.PAWN ∧
      (⟨4, 0⟩ : Position).y = back_rank Color.WHITE ∧
      do_move ⟨⟨4, 1⟩, ⟨4, 0⟩, ⟨PieceType.PAWN, Color.WHITE⟩, none,
          some ⟨PieceType.QUEEN, Color.WHITE⟩⟩ whitePawnE7Board ⟨4, 0⟩ =
        some ⟨PieceType.QUEEN, Color.WHITE⟩ ∧
      do_move ⟨⟨4, 1⟩, ⟨4, 0⟩, ⟨PieceType.PAWN, Color.WHITE⟩, none,
          some ⟨PieceType.QUEEN, Color.WHITE⟩⟩ whitePawnE7Board ⟨4, 1⟩ = none) :=
  ⟨c7_promotion_rules.1 queenBoard Color.BLACK ⟨2, 4⟩ ⟨3, 3⟩
      ⟨⟨2, 4⟩, ⟨3, 3⟩, ⟨PieceType.QUEEN, Color.BLACK⟩, none, none⟩ (by decide),
    c7_promotion_rules.2.1 whitePawnE7Board Color.WHITE ⟨4, 1⟩ ⟨4, 0⟩ PieceType.QUEEN
      ⟨⟨4, 1⟩, ⟨4, 0⟩, ⟨PieceType.PAWN, Color.WHITE⟩, none,
        some ⟨PieceType.QUEEN, Color.WHITE⟩⟩ (by decide)⟩

/-- C8: `deduce_king_state` hands back the board it was given on every
return path (the speculative apply/undo pairs cancel, and the Safe and
Checkmate paths do not touch the board). -/
theorem c8_deduce_preserves_board :
    ∀ (b : Board) (c : Color), (deduce_king_state b c).2 = b :=
  fun b c => deduce_board_eq b c

/-- C9: on a well-formed notation string, ` parse_move_notation` returns a
`Move` exactly when exactly one own piece matching the piece-letter and
departure filters yields a valid interpreted move to the destination; zero
candidates give "invalid move" and two or more give "ambiguous move
notation"; and "Nf3" from the fresh game resolves to the g1 knight moving
to f3. -/
theorem c9_parse_resolution :
    (∀ (g : Game) (s : List Char) (nt : NotationGroups),
      notationMatch (s.map Char.toLower) = some nt →
      ((∃ m, parse_move_notation g s = Except.ok m) ↔
        (matchingPositions g nt).countP
          (fun p => isMoveOk
            (interpret_move g.board g.moving_color p nt.destination nt.promotion_to)) = 1) ∧
      ((matchingPositions g nt).countP
          (fun p => isMoveOk
            (interpret_move g.board g.moving_color p nt.destination nt.promotion_to)) = 0 →
        parse_move_notation g s = Except.error "invalid move") ∧
      (2 ≤ (matchingPositions g nt).countP
          (fun p => isMoveOk
            (interpret_move g.board g.moving_color p nt.destination nt.promotion_to)) →
        parse_move_notation g s = Except.error "ambiguous move notation")) ∧
    parse_move_notation fresh (['N', 'f', '3']) =
      Except.ok ⟨⟨6, 7⟩, ⟨5, 5⟩, ⟨PieceType.KNIGHT, Color.WHITE⟩, none, none⟩ := by
  refine ⟨?_, by decide⟩
  intro g s nt hm
  rw [← candidateMoves_length g nt]
  exact parse_spec g s nt hm

/-- C9 witness: the resolution rule applied to "Nf3" from the fresh game. -/
theorem c9_parse_resolution_witness :
    (∃ m, parse_move_notation fresh (['N', 'f', '3']) = Except.ok m) ↔
      (matchingPositions fresh
        ⟨some PieceType.KNIGHT, none, none, ⟨5, 5⟩, none⟩).countP
        (fun p => isMoveOk
          (interpret_move fresh.board fresh.moving_color p ⟨5, 5⟩ none)) = 1 :=
  (c9_parse_resolution.1 fresh (['N', 'f', '3'])
    ⟨some PieceType.KNIGHT, none, none, ⟨5, 5⟩, none⟩ (by decide)).1

/-- C10: immediately after construction and after every `make_move` call the
cached `enemy_king_state` equals `deduce_king_state` of the current board
and current enemy colour. -/
theorem c10_cached_king_state_invariant :
    (∀ (b : Board) (c : Color),
      (Game.init b c).enemy_king_state =
        (deduce_king_state (Game.init b c).board (Game.init b c).enemy_color).1) ∧
    (∀ (g : Game) (dep dst : Position) (pr : Option PieceType),
      g.enemy_king_state = (deduce_king_state g.board g.enemy_color).1 →
      (make_move g dep dst pr).2.enemy_king_state =
        (deduce_king_state (make_move g dep dst pr).2.board
          (make_move g dep dst pr).2.enemy_color).1) :=
  ⟨fun b c => game_init_inv b c, fun g dep dst pr h => make_move_inv g dep dst pr h⟩

/-- C10 witness: the invariant holds for a concrete game and is preserved by
a concrete committed move. -/
theorem c10_cached_king_state_invariant_witness :
    twoKingsGame.enemy_king_state =
      (deduce_king_state twoKingsGame.board twoKingsGame.enemy_color).1 ∧
    (make_move twoKingsGame ⟨1, 2⟩ ⟨1, 1⟩ none).2.enemy_king_state =
      (deduce_king_state (make_move twoKingsGame ⟨1, 2⟩ ⟨1, 1⟩ none).2.board
        (make_move twoKingsGame ⟨1, 2⟩ ⟨1, 1⟩ none).2.enemy_color).1 :=
  ⟨by decide,
    c10_cached_king_state_invariant.2 twoKingsGame ⟨1, 2⟩ ⟨1, 1⟩ none (by decide)⟩
